import Mathlib

/-!
Verification development for the SHOT solver core (term algebra, expression
tree, and solution-strategy task assembly).

Doubles are modelled as rationals (`ℚ`): every operation the verified claims
touch (addition, multiplication, sign comparisons, exact comparisons with
`0.0` and `1.0`) is exact on the inputs involved.  `VariablePtr` identity is
modelled by the variable's integer index; `std::map` keyed by variables is
modelled by an association list with `std::map::insert` semantics (an insert
on an existing key leaves the map unchanged and reports failure).
-/

namespace SHOT

/-- `E_Convexity` enumeration from the model enums. -/
inductive E_Convexity where
  | Linear
  | Convex
  | Concave
  | Nonconvex
  | Unknown
  | NotSet
deriving DecidableEq, Repr

/-- `E_Monotonicity` enumeration from the model enums. -/
inductive E_Monotonicity where
  | Nondecreasing
  | Nonincreasing
  | Constant
  | Unknown
  | NotSet
deriving DecidableEq, Repr

/-- A point (`VectorDouble`) assigning a value to every variable index;
`Variable::calculate(point)` is lookup of the variable's index. -/
abbrev PointVec : Type := Nat → ℚ

/-- `SparseVariableVector`: `std::map<VariablePtr, double>` modelled as an
association list from variable index to value. -/
abbrev SparseVariableVector : Type := List (Nat × ℚ)

/-- `std::map::insert`: if the key is present the map is unchanged and the
returned flag is `false`; otherwise the binding is added and the flag is
`true`.  (Ordering of the underlying `std::map` is irrelevant to lookups, so
the new binding is appended.) -/
def mapInsert (m : SparseVariableVector) (k : Nat) (v : ℚ) :
    SparseVariableVector × Bool :=
  if (m.lookup k).isSome then (m, false) else (m ++ [(k, v)], true)

/-- Lookup in a `SparseVariableVector`. -/
def svvLookup (m : SparseVariableVector) (k : Nat) : Option ℚ :=
  m.lookup k

/-- `LinearTerm`: a coefficient times one variable (variable identity is its
index). -/
structure LinearTerm where
  coefficient : ℚ
  varIndex : Nat
deriving DecidableEq, Repr

/-- `LinearTerm::calculate(point)`. -/
def LinearTerm.calculate (t : LinearTerm) (pt : PointVec) : ℚ :=
  t.coefficient * pt t.varIndex

/-- `LinearTerm::getConvexity`: always `Linear`. -/
def LinearTerm.getConvexity (_ : LinearTerm) : E_Convexity :=
  E_Convexity.Linear

/-- `LinearTerm::getMonotonicity`: sign of the coefficient. -/
def LinearTerm.getMonotonicity (t : LinearTerm) : E_Monotonicity :=
  if 0 < t.coefficient then E_Monotonicity.Nondecreasing
  else if t.coefficient < 0 then E_Monotonicity.Nonincreasing
  else E_Monotonicity.Constant

/-- `QuadraticTerm`: a coefficient times two variable references. -/
structure QuadraticTerm where
  coefficient : ℚ
  firstVariable : Nat
  secondVariable : Nat
deriving DecidableEq, Repr

/-- `QuadraticTerm::getMonotonicity`: sign of the coefficient. -/
def QuadraticTerm.getMonotonicity (t : QuadraticTerm) : E_Monotonicity :=
  if 0 < t.coefficient then E_Monotonicity.Nondecreasing
  else if t.coefficient < 0 then E_Monotonicity.Nonincreasing
  else E_Monotonicity.Constant

/-- `MonomialTerm`: a coefficient times a product of variables. -/
structure MonomialTerm where
  coefficient : ℚ
  vars : List Nat
deriving DecidableEq, Repr

/-- `MonomialTerm::getMonotonicity`: always `Unknown`. -/
def MonomialTerm.getMonotonicity (_ : MonomialTerm) : E_Monotonicity :=
  E_Monotonicity.Unknown

/-- `SignomialElement`: one variable raised to a (double) power. -/
structure SignomialElement where
  varIndex : Nat
  power : ℚ
deriving DecidableEq, Repr

/-- `SignomialTerm`: coefficient times a product of signomial elements. -/
structure SignomialTerm where
  coefficient : ℚ
  elements : List SignomialElement
deriving DecidableEq, Repr

/-- Number of elements of a signomial term whose power is positive (the
`numberPositivePowers` counter of the source loops). -/
def SignomialTerm.numberPositivePowers (t : SignomialTerm) : Nat :=
  (t.elements.filter (fun E => 0 < E.power)).length

/-- Sum of the element powers (the `sumPowers` accumulator of the source
loops). -/
def SignomialTerm.sumPowers (t : SignomialTerm) : ℚ :=
  (t.elements.map (fun E => E.power)).sum

/-- `SignomialTerm::getConvexity`, translated branch for branch.  The
negative-coefficient branch has no explicit fallback and falls through to the
final `return E_Convexity::Nonconvex`, as does a zero coefficient. -/
def SignomialTerm.getConvexity (t : SignomialTerm) : E_Convexity :=
  if t.elements.length = 1 ∧ t.sumPowers = 1 then E_Convexity.Linear
  else if 0 < t.coefficient then
    if t.numberPositivePowers = 1 ∧ 1 < t.sumPowers then E_Convexity.Convex
    else if t.elements.length = 1 ∧ 0 < t.sumPowers ∧ t.sumPowers < 1 then
      E_Convexity.Concave
    else if t.numberPositivePowers = 0 then E_Convexity.Convex
    else E_Convexity.Nonconvex
  else if t.coefficient < 0 then
    if t.numberPositivePowers = 1 ∧ 1 < t.sumPowers then E_Convexity.Concave
    else if t.elements.length = 1 ∧ 0 < t.sumPowers ∧ t.sumPowers < 1 then
      E_Convexity.Convex
    else if t.numberPositivePowers = 0 then E_Convexity.Concave
    else E_Convexity.Nonconvex
  else E_Convexity.Nonconvex

/-- `SignomialTerm::getMonotonicity`, translated branch for branch. -/
def SignomialTerm.getMonotonicity (t : SignomialTerm) : E_Monotonicity :=
  if t.coefficient = 0 then E_Monotonicity.Constant
  else if 0 < t.coefficient then
    if t.elements.length = 1 ∧ t.sumPowers = 0 then E_Monotonicity.Constant
    else if t.elements.length = 1 ∧ 0 < t.sumPowers then
      E_Monotonicity.Nondecreasing
    else if t.elements.length = 1 ∧ t.sumPowers < 0 then
      E_Monotonicity.Nonincreasing
    else if t.numberPositivePowers = 0 then E_Monotonicity.Nonincreasing
    else if t.numberPositivePowers = t.elements.length then
      E_Monotonicity.Nondecreasing
    else E_Monotonicity.Unknown
  else if t.coefficient < 0 then
    if t.elements.length = 1 ∧ t.sumPowers = 0 then E_Monotonicity.Constant
    else if t.elements.length = 1 ∧ 0 < t.sumPowers then
      E_Monotonicity.Nonincreasing
    else if t.elements.length = 1 ∧ t.sumPowers < 0 then
      E_Monotonicity.Nondecreasing
    else if t.numberPositivePowers = 0 then E_Monotonicity.Nondecreasing
    else if t.numberPositivePowers = t.elements.length then
      E_Monotonicity.Nonincreasing
    else E_Monotonicity.Unknown
  else E_Monotonicity.Unknown

/-- `Terms<T>::updateMonotonicity`, factored over the list of the member
terms' monotonicities: the two `areAll…` flags are accumulated over the loop
and the first matching flag decides the aggregate value. -/
def monotonicityOfList (ms : List E_Monotonicity) : E_Monotonicity :=
  let flags := ms.foldl
    (fun (b : Bool × Bool) m =>
      (b.1 && (m == E_Monotonicity.Nonincreasing || m == E_Monotonicity.Constant),
       b.2 && (m == E_Monotonicity.Nondecreasing || m == E_Monotonicity.Constant)))
    (true, true)
  if flags.1 then E_Monotonicity.Nonincreasing
  else if flags.2 then E_Monotonicity.Nondecreasing
  else E_Monotonicity.Unknown

/-- `LinearTerms`: the term vector together with the two cached aggregate
properties of the `Terms<T>` base (`convexity`, `monotonicity`, both
initialised to `NotSet`). -/
structure LinearTerms where
  terms : List LinearTerm
  convexity : E_Convexity
  monotonicity : E_Monotonicity
deriving DecidableEq, Repr

/-- `QuadraticTerms` collection state. -/
structure QuadraticTerms where
  terms : List QuadraticTerm
  convexity : E_Convexity
  monotonicity : E_Monotonicity
deriving DecidableEq, Repr

/-- `MonomialTerms` collection state. -/
structure MonomialTerms where
  terms : List MonomialTerm
  convexity : E_Convexity
  monotonicity : E_Monotonicity
deriving DecidableEq, Repr

/-- `SignomialTerms` collection state. -/
structure SignomialTerms where
  terms : List SignomialTerm
  convexity : E_Convexity
  monotonicity : E_Monotonicity
deriving DecidableEq, Repr

/-- `LinearTerms::add(LinearTermPtr)`: pushes the term and resets only the
monotonicity cache (the convexity cache is left untouched by the source). -/
def LinearTerms.add (c : LinearTerms) (t : LinearTerm) : LinearTerms :=
  { c with terms := c.terms ++ [t], monotonicity := E_Monotonicity.NotSet }

/-- `QuadraticTerms::add(QuadraticTermPtr)`: pushes the term and resets both
caches. -/
def QuadraticTerms.add (c : QuadraticTerms) (t : QuadraticTerm) : QuadraticTerms :=
  { c with
      terms := c.terms ++ [t]
      convexity := E_Convexity.NotSet
      monotonicity := E_Monotonicity.NotSet }

/-- `MonomialTerms::add(MonomialTermPtr)`: pushes the term and resets both
caches. -/
def MonomialTerms.add (c : MonomialTerms) (t : MonomialTerm) : MonomialTerms :=
  { c with
      terms := c.terms ++ [t]
      convexity := E_Convexity.NotSet
      monotonicity := E_Monotonicity.NotSet }

/-- `SignomialTerms::add(SignomialTermPtr)`: pushes the term and resets both
caches. -/
def SignomialTerms.add (c : SignomialTerms) (t : SignomialTerm) : SignomialTerms :=
  { c with
      terms := c.terms ++ [t]
      convexity := E_Convexity.NotSet
      monotonicity := E_Monotonicity.NotSet }

/-- `LinearTerms::updateConvexity`: always stores `Linear`. -/
def LinearTerms.updateConvexity (c : LinearTerms) : LinearTerms :=
  { c with convexity := E_Convexity.Linear }

/-- `MonomialTerms::updateConvexity`: always stores `Nonconvex`. -/
def MonomialTerms.updateConvexity (c : MonomialTerms) : MonomialTerms :=
  { c with convexity := E_Convexity.Nonconvex }

/-- `SignomialTerms::updateConvexity`: always stores `Unknown`. -/
def SignomialTerms.updateConvexity (c : SignomialTerms) : SignomialTerms :=
  { c with convexity := E_Convexity.Unknown }

/-- The loop body state of `QuadraticTerms::updateConvexity`: the Eigen
triplet list, the set of involved variables (`variableMap` keys, insertion
keeping one copy per variable), and the `allSquares` / `allPositive` /
`allNegative` flags.  Mirrors the source loop: a square term contributes a
diagonal triplet and constrains the two sign flags; a bilinear term clears
`allSquares` and contributes a halved lower-triangular off-diagonal triplet. -/
def quadScan : List QuadraticTerm → List (Nat × Nat × ℚ) → List Nat →
    Bool → Bool → Bool → List (Nat × Nat × ℚ) × List Nat × Bool × Bool × Bool
  | [], els, vars, allSq, allPos, allNeg => (els, vars, allSq, allPos, allNeg)
  | T :: rest, els, vars, allSq, allPos, allNeg =>
    if T.firstVariable = T.secondVariable then
      quadScan rest (els ++ [(T.firstVariable, T.firstVariable, T.coefficient)])
        (if T.firstVariable ∈ vars then vars else vars ++ [T.firstVariable])
        allSq (allPos && decide (0 ≤ T.coefficient))
        (allNeg && decide (T.coefficient ≤ 0))
    else
      quadScan rest
        (els ++ [if T.secondVariable < T.firstVariable then
            (T.firstVariable, T.secondVariable, T.coefficient / 2)
          else (T.secondVariable, T.firstVariable, T.coefficient / 2)])
        (let vars1 := if T.firstVariable ∈ vars then vars else vars ++ [T.firstVariable]
         if T.secondVariable ∈ vars1 then vars1 else vars1 ++ [T.secondVariable])
        false allPos allNeg

/-- Classification of the eigen-decomposition outcome in
`QuadraticTerms::updateConvexity`: `Eigen::Success` failure yields `Unknown`;
otherwise the source's `areAllPositiveOrZero`/`areAllNegativeOrZero` flags
use the strict comparisons `eigenvalue > 0` / `eigenvalue < 0` (reproduced
here), with the all-positive check performed first. -/
def quadEigenClassify : Option (List ℚ) → E_Convexity
  | none => E_Convexity.Unknown
  | some eigenvalues =>
    if eigenvalues.all (fun v => decide (0 < v)) then E_Convexity.Convex
    else if eigenvalues.all (fun v => decide (v < 0)) then E_Convexity.Concave
    else E_Convexity.Nonconvex

/-- `QuadraticTerms::updateConvexity`, as a pure classification of the term
list.  The eigen-decomposition (an Eigen collaborator, outside the core) is
abstracted as an `oracle` taking the dimension (`variableMap.size()`) and the
triplet list and returning the eigenvalues, or `none` on decomposition
failure. -/
def quadConvexityValue (oracle : Nat → List (Nat × Nat × ℚ) → Option (List ℚ))
    (terms : List QuadraticTerm) : E_Convexity :=
  if terms.length = 0 then E_Convexity.Linear
  else
    let scanned := quadScan terms [] [] true true true
    let els := scanned.1
    let vars := scanned.2.1
    let allSquares := scanned.2.2.1
    let allPositive := scanned.2.2.2.1
    let allNegative := scanned.2.2.2.2
    if allSquares && allPositive then E_Convexity.Convex
    else if allSquares && allNegative then E_Convexity.Concave
    else quadEigenClassify (oracle vars.length els)

/-- Instrumentation of `QuadraticTerms::updateConvexity`: `true` exactly when
control reaches the construction of the sparse matrix and the call to
`Eigen::SelfAdjointEigenSolver`, i.e. when neither the empty shortcut nor one
of the two all-square sign shortcuts returned early. -/
def quadUsesEigen (terms : List QuadraticTerm) : Bool :=
  if terms.length = 0 then false
  else
    let scanned := quadScan terms [] [] true true true
    let allSquares := scanned.2.2.1
    let allPositive := scanned.2.2.2.1
    let allNegative := scanned.2.2.2.2
    !(allSquares && allPositive) && !(allSquares && allNegative)

/-- `QuadraticTerms::updateConvexity` as a state update. -/
def QuadraticTerms.updateConvexity
    (oracle : Nat → List (Nat × Nat × ℚ) → Option (List ℚ))
    (c : QuadraticTerms) : QuadraticTerms :=
  { c with convexity := quadConvexityValue oracle c.terms }

/-- `Terms<T>::updateMonotonicity` for `LinearTerms`. -/
def LinearTerms.updateMonotonicity (c : LinearTerms) : LinearTerms :=
  { c with monotonicity :=
      monotonicityOfList (c.terms.map LinearTerm.getMonotonicity) }

/-- `Terms<T>::updateMonotonicity` for `QuadraticTerms`. -/
def QuadraticTerms.updateMonotonicity (c : QuadraticTerms) : QuadraticTerms :=
  { c with monotonicity :=
      monotonicityOfList (c.terms.map QuadraticTerm.getMonotonicity) }

/-- `Terms<T>::updateMonotonicity` for `MonomialTerms`. -/
def MonomialTerms.updateMonotonicity (c : MonomialTerms) : MonomialTerms :=
  { c with monotonicity :=
      monotonicityOfList (c.terms.map MonomialTerm.getMonotonicity) }

/-- `Terms<T>::updateMonotonicity` for `SignomialTerms`. -/
def SignomialTerms.updateMonotonicity (c : SignomialTerms) : SignomialTerms :=
  { c with monotonicity :=
      monotonicityOfList (c.terms.map SignomialTerm.getMonotonicity) }

/-- `Terms<T>::getConvexity` for `LinearTerms`: recompute lazily when the
cache is `NotSet`, then return the cached value (value, updated state). -/
def LinearTerms.getConvexity (c : LinearTerms) : E_Convexity × LinearTerms :=
  if c.convexity = E_Convexity.NotSet then
    ((c.updateConvexity).convexity, c.updateConvexity)
  else (c.convexity, c)

/-- `Terms<T>::getConvexity` for `QuadraticTerms` (parameterised by the eigen
oracle). -/
def QuadraticTerms.getConvexity
    (oracle : Nat → List (Nat × Nat × ℚ) → Option (List ℚ))
    (c : QuadraticTerms) : E_Convexity × QuadraticTerms :=
  if c.convexity = E_Convexity.NotSet then
    ((c.updateConvexity oracle).convexity, c.updateConvexity oracle)
  else (c.convexity, c)

/-- `Terms<T>::getConvexity` for `MonomialTerms`. -/
def MonomialTerms.getConvexity (c : MonomialTerms) : E_Convexity × MonomialTerms :=
  if c.convexity = E_Convexity.NotSet then
    ((c.updateConvexity).convexity, c.updateConvexity)
  else (c.convexity, c)

/-- `Terms<T>::getConvexity` for `SignomialTerms`. -/
def SignomialTerms.getConvexity (c : SignomialTerms) :
    E_Convexity × SignomialTerms :=
  if c.convexity = E_Convexity.NotSet then
    ((c.updateConvexity).convexity, c.updateConvexity)
  else (c.convexity, c)

/-- `Terms<T>::getMonotonicity` for `LinearTerms`. -/
def LinearTerms.getMonotonicity (c : LinearTerms) :
    E_Monotonicity × LinearTerms :=
  if c.monotonicity = E_Monotonicity.NotSet then
    ((c.updateMonotonicity).monotonicity, c.updateMonotonicity)
  else (c.monotonicity, c)

/-- `Terms<T>::getMonotonicity` for `QuadraticTerms`. -/
def QuadraticTerms.getMonotonicity (c : QuadraticTerms) :
    E_Monotonicity × QuadraticTerms :=
  if c.monotonicity = E_Monotonicity.NotSet then
    ((c.updateMonotonicity).monotonicity, c.updateMonotonicity)
  else (c.monotonicity, c)

/-- `Terms<T>::getMonotonicity` for `MonomialTerms`. -/
def MonomialTerms.getMonotonicity (c : MonomialTerms) :
    E_Monotonicity × MonomialTerms :=
  if c.monotonicity = E_Monotonicity.NotSet then
    ((c.updateMonotonicity).monotonicity, c.updateMonotonicity)
  else (c.monotonicity, c)

/-- `Terms<T>::getMonotonicity` for `SignomialTerms`. -/
def SignomialTerms.getMonotonicity (c : SignomialTerms) :
    E_Monotonicity × SignomialTerms :=
  if c.monotonicity = E_Monotonicity.NotSet then
    ((c.updateMonotonicity).monotonicity, c.updateMonotonicity)
  else (c.monotonicity, c)

/-- `LinearTerms::calculateGradient`, translated faithfully.  Terms with
coefficient exactly `0.0` are skipped.  For a term whose variable is already
present, the source executes `element.second += T->coefficient;`, where
`element` is the `std::pair<iterator, bool>` returned by `map::insert`: this
increments the local `bool` copy and leaves the map entry unchanged, so the
fold keeps only the first inserted coefficient per variable.  (The point
argument is unused, as in the source.) -/
def LinearTerms.calculateGradient (c : LinearTerms) (_ : PointVec) :
    SparseVariableVector :=
  c.terms.foldl
    (fun gradient T =>
      if T.coefficient = 0 then gradient
      else (mapInsert gradient T.varIndex T.coefficient).1)
    []

/-- **C1** (code bug).  The spec demands that duplicate entries for the same
variable accumulate by addition in `LinearTerms::calculateGradient`.  For the
collection `2*x + 3*x` the gradient entry for `x` should therefore be `5.0`,
but the code produces `2.0`: the accumulation statement
`element.second += T->coefficient;` increments the `bool` component of the
`std::pair<iterator, bool>` returned by `map::insert` instead of the mapped
value `element.first->second` (which the sibling
`QuadraticTerms::calculateGradient` updates correctly), so the first inserted
coefficient is kept unchanged.  The single-term scenario (`coeff=2` on `x`
gives `{x: 2.0}`) does hold. -/
theorem claim_C1_linear_gradient_duplicate_bug :
    svvLookup
        (LinearTerms.calculateGradient
          { terms := [{ coefficient := 2, varIndex := 0 },
                      { coefficient := 3, varIndex := 0 }],
            convexity := E_Convexity.NotSet,
            monotonicity := E_Monotonicity.NotSet }
          (fun _ => 0)) 0 = some 2
      ∧ (2 : ℚ) ≠ 2 + 3
      ∧ svvLookup
          (LinearTerms.calculateGradient
            { terms := [{ coefficient := 2, varIndex := 0 }],
              convexity := E_Convexity.NotSet,
              monotonicity := E_Monotonicity.NotSet }
            (fun _ => 0)) 0 = some 2 := by
  refine ⟨?_, by norm_num, ?_⟩ <;> rfl

/-- **C2** (counterexample).  The claim states that *every* `add` resets both
cached properties to `NotSet`.  `LinearTerms::add` resets only the
monotonicity cache: starting from a fresh collection, querying `getConvexity`
caches `Linear`, and a subsequent `add` leaves the convexity cache at
`Linear`, not `NotSet`. -/
theorem claim_C2_counterexample :
    ¬ (((LinearTerms.getConvexity
          { terms := [], convexity := E_Convexity.NotSet,
            monotonicity := E_Monotonicity.NotSet }).2.add
          { coefficient := 1, varIndex := 0 }).convexity
        = E_Convexity.NotSet) := by
  decide

/-- **C2** (amended).  Adding a term to `QuadraticTerms`, `MonomialTerms` or
`SignomialTerms` resets both the cached convexity and the cached monotonicity
to `NotSet`; `LinearTerms::add` resets only the cached monotonicity and
leaves the convexity cache unchanged (its convexity is the constant
`Linear`).  The next `getConvexity`/`getMonotonicity` query on a `NotSet`
cache recomputes lazily. -/
theorem claim_C2_amended_add_resets_caches :
    (∀ (c : LinearTerms) (t : LinearTerm),
        (c.add t).monotonicity = E_Monotonicity.NotSet
          ∧ (c.add t).convexity = c.convexity)
      ∧ (∀ (c : QuadraticTerms) (t : QuadraticTerm),
          (c.add t).monotonicity = E_Monotonicity.NotSet
            ∧ (c.add t).convexity = E_Convexity.NotSet)
      ∧ (∀ (c : MonomialTerms) (t : MonomialTerm),
          (c.add t).monotonicity = E_Monotonicity.NotSet
            ∧ (c.add t).convexity = E_Convexity.NotSet)
      ∧ (∀ (c : SignomialTerms) (t : SignomialTerm),
          (c.add t).monotonicity = E_Monotonicity.NotSet
            ∧ (c.add t).convexity = E_Convexity.NotSet)
      ∧ (∀ c : LinearTerms, c.monotonicity = E_Monotonicity.NotSet →
          c.getMonotonicity.2 = c.updateMonotonicity)
      ∧ (∀ c : QuadraticTerms, c.convexity = E_Convexity.NotSet →
          ∀ oracle, (c.getConvexity oracle).2 = c.updateConvexity oracle) := by
  refine ⟨fun c t => ⟨rfl, rfl⟩, fun c t => ⟨rfl, rfl⟩, fun c t => ⟨rfl, rfl⟩,
    fun c t => ⟨rfl, rfl⟩, fun c h => ?_, fun c h oracle => ?_⟩
  · simp [LinearTerms.getMonotonicity, h]
  · simp [QuadraticTerms.getConvexity, h]

/-- **C4** (confirmed).  A `SignomialTerm` with exactly one element whose
power sums to exactly `1` is classified `Linear` by
`SignomialTerm::getConvexity`, before the sign of the coefficient is ever
inspected. -/
theorem claim_C4_signomial_power_one_linear (t : SignomialTerm)
    (hlen : t.elements.length = 1) (hsum : t.sumPowers = 1) :
    t.getConvexity = E_Convexity.Linear := by
  unfold SignomialTerm.getConvexity
  rw [if_pos ⟨hlen, hsum⟩]

/-- Witness for C4: the term `-3 * x^1` (negative coefficient) has one
element of power `1` and is classified `Linear`. -/
theorem claim_C4_witness :
    (SignomialTerm.mk (-3) [SignomialElement.mk 0 1]).elements.length = 1
      ∧ (SignomialTerm.mk (-3) [SignomialElement.mk 0 1]).sumPowers = 1
      ∧ (SignomialTerm.mk (-3) [SignomialElement.mk 0 1]).getConvexity
          = E_Convexity.Linear := by
  refine ⟨rfl, by norm_num [SignomialTerm.sumPowers], ?_⟩
  exact claim_C4_signomial_power_one_linear _ rfl
    (by norm_num [SignomialTerm.sumPowers])

/-- The pairwise flag accumulation of `Terms<T>::updateMonotonicity` computes
the two `List.all` predicates. -/
lemma foldl_and_pair {α : Type} (p q : α → Bool) (ms : List α) (b : Bool × Bool) :
    ms.foldl (fun b m => (b.1 && p m, b.2 && q m)) b
      = (b.1 && ms.all p, b.2 && ms.all q) := by
  induction ms generalizing b with
  | nil => simp
  | cons m rest ih => simp [List.foldl_cons, ih, Bool.and_assoc]

/-- Closed form of `monotonicityOfList`. -/
lemma monotonicityOfList_eq (ms : List E_Monotonicity) :
    monotonicityOfList ms =
      if ms.all (fun m => m == E_Monotonicity.Nonincreasing
          || m == E_Monotonicity.Constant) then E_Monotonicity.Nonincreasing
      else if ms.all (fun m => m == E_Monotonicity.Nondecreasing
          || m == E_Monotonicity.Constant) then E_Monotonicity.Nondecreasing
      else E_Monotonicity.Unknown := by
  unfold monotonicityOfList
  rw [foldl_and_pair]
  simp

/-- `Terms<T>::updateMonotonicity` never stores `NotSet`. -/
lemma monotonicityOfList_ne_notSet (ms : List E_Monotonicity) :
    monotonicityOfList ms ≠ E_Monotonicity.NotSet := by
  rw [monotonicityOfList_eq]
  split_ifs <;> simp

/-- `Terms<T>::updateMonotonicity` never stores `Constant`. -/
lemma monotonicityOfList_ne_constant (ms : List E_Monotonicity) :
    monotonicityOfList ms ≠ E_Monotonicity.Constant := by
  rw [monotonicityOfList_eq]
  split_ifs <;> simp

/-- `quadEigenClassify` never yields `NotSet`. -/
lemma quadEigenClassify_ne_notSet (r : Option (List ℚ)) :
    quadEigenClassify r ≠ E_Convexity.NotSet := by
  cases r with
  | none => simp [quadEigenClassify]
  | some evs =>
    simp only [quadEigenClassify]
    split_ifs <;> simp

/-- `QuadraticTerms::updateConvexity` never stores `NotSet`. -/
lemma quadConvexityValue_ne_notSet
    (oracle : Nat → List (Nat × Nat × ℚ) → Option (List ℚ))
    (terms : List QuadraticTerm) :
    quadConvexityValue oracle terms ≠ E_Convexity.NotSet := by
  unfold quadConvexityValue
  dsimp only
  split_ifs <;> simp [quadEigenClassify_ne_notSet]

/-- **C9** (confirmed).  For each of the four term collections, calling
`getConvexity` (resp. `getMonotonicity`) twice with no intervening `add`
yields the same value both times, and the second call leaves the collection
state exactly as the first call left it: the first call may store the
computed value in the cache (which is then never `NotSet`), and the second
call returns the stored value without further change. -/
theorem claim_C9_getters_idempotent :
    (∀ c : LinearTerms,
        c.getConvexity.2.getConvexity.1 = c.getConvexity.1
          ∧ c.getConvexity.2.getConvexity.2 = c.getConvexity.2
          ∧ c.getMonotonicity.2.getMonotonicity.1 = c.getMonotonicity.1
          ∧ c.getMonotonicity.2.getMonotonicity.2 = c.getMonotonicity.2)
      ∧ (∀ (oracle : Nat → List (Nat × Nat × ℚ) → Option (List ℚ))
          (c : QuadraticTerms),
          (c.getConvexity oracle).2.getConvexity oracle
              = ((c.getConvexity oracle).1, (c.getConvexity oracle).2)
            ∧ c.getMonotonicity.2.getMonotonicity.1 = c.getMonotonicity.1
            ∧ c.getMonotonicity.2.getMonotonicity.2 = c.getMonotonicity.2)
      ∧ (∀ c : MonomialTerms,
          c.getConvexity.2.getConvexity.1 = c.getConvexity.1
            ∧ c.getConvexity.2.getConvexity.2 = c.getConvexity.2
            ∧ c.getMonotonicity.2.getMonotonicity.1 = c.getMonotonicity.1
            ∧ c.getMonotonicity.2.getMonotonicity.2 = c.getMonotonicity.2)
      ∧ (∀ c : SignomialTerms,
          c.getConvexity.2.getConvexity.1 = c.getConvexity.1
            ∧ c.getConvexity.2.getConvexity.2 = c.getConvexity.2
            ∧ c.getMonotonicity.2.getMonotonicity.1 = c.getMonotonicity.1
            ∧ c.getMonotonicity.2.getMonotonicity.2 = c.getMonotonicity.2) := by
  refine ⟨fun c => ⟨?_, ?_, ?_, ?_⟩, fun oracle c => ⟨?_, ?_, ?_⟩,
    fun c => ⟨?_, ?_, ?_, ?_⟩, fun c => ⟨?_, ?_, ?_, ?_⟩⟩ <;>
    first
    | (rcases hc : c.convexity with _ | _ | _ | _ | _ | _ <;>
        simp [LinearTerms.getConvexity, QuadraticTerms.getConvexity,
          MonomialTerms.getConvexity, SignomialTerms.getConvexity,
          LinearTerms.updateConvexity, QuadraticTerms.updateConvexity,
          MonomialTerms.updateConvexity, SignomialTerms.updateConvexity,
          hc, quadConvexityValue_ne_notSet])
    | (rcases hm : c.monotonicity with _ | _ | _ | _ | _ <;>
        simp [LinearTerms.getMonotonicity, QuadraticTerms.getMonotonicity,
          MonomialTerms.getMonotonicity, SignomialTerms.getMonotonicity,
          LinearTerms.updateMonotonicity, QuadraticTerms.updateMonotonicity,
          MonomialTerms.updateMonotonicity, SignomialTerms.updateMonotonicity,
          hm, monotonicityOfList_ne_notSet])

/-- **C10** (confirmed).  `Terms<T>::updateMonotonicity` tests the
`areAllNonincreasing` flag first, so a collection in which every member term
reports `Constant` monotonicity — the empty collection included — is
classified `Nonincreasing`; the aggregate is never `Constant`; and `Unknown`
arises exactly when the terms are neither all
nonincreasing-or-constant nor all nondecreasing-or-constant.  The statement
covers the generic computation and, via `getMonotonicity` on a `NotSet`
cache, each of the four collections. -/
theorem claim_C10_all_constant_monotonicity :
    (∀ ms : List E_Monotonicity,
        ((∀ m ∈ ms, m = E_Monotonicity.Constant) →
            monotonicityOfList ms = E_Monotonicity.Nonincreasing)
          ∧ monotonicityOfList ms ≠ E_Monotonicity.Constant
          ∧ (monotonicityOfList ms = E_Monotonicity.Unknown ↔
              ¬ (∀ m ∈ ms, m = E_Monotonicity.Nonincreasing
                  ∨ m = E_Monotonicity.Constant)
                ∧ ¬ (∀ m ∈ ms, m = E_Monotonicity.Nondecreasing
                    ∨ m = E_Monotonicity.Constant)))
      ∧ (∀ c : LinearTerms, c.monotonicity = E_Monotonicity.NotSet →
          (∀ t ∈ c.terms, t.getMonotonicity = E_Monotonicity.Constant) →
          c.getMonotonicity.1 = E_Monotonicity.Nonincreasing)
      ∧ (∀ c : QuadraticTerms, c.monotonicity = E_Monotonicity.NotSet →
          (∀ t ∈ c.terms, t.getMonotonicity = E_Monotonicity.Constant) →
          c.getMonotonicity.1 = E_Monotonicity.Nonincreasing)
      ∧ (∀ c : MonomialTerms, c.monotonicity = E_Monotonicity.NotSet →
          (∀ t ∈ c.terms, t.getMonotonicity = E_Monotonicity.Constant) →
          c.getMonotonicity.1 = E_Monotonicity.Nonincreasing)
      ∧ (∀ c : SignomialTerms, c.monotonicity = E_Monotonicity.NotSet →
          (∀ t ∈ c.terms, t.getMonotonicity = E_Monotonicity.Constant) →
          c.getMonotonicity.1 = E_Monotonicity.Nonincreasing) := by
  have hmain : ∀ ms : List E_Monotonicity,
      ((∀ m ∈ ms, m = E_Monotonicity.Constant) →
          monotonicityOfList ms = E_Monotonicity.Nonincreasing)
        ∧ monotonicityOfList ms ≠ E_Monotonicity.Constant
        ∧ (monotonicityOfList ms = E_Monotonicity.Unknown ↔
            ¬ (∀ m ∈ ms, m = E_Monotonicity.Nonincreasing
                ∨ m = E_Monotonicity.Constant)
              ∧ ¬ (∀ m ∈ ms, m = E_Monotonicity.Nondecreasing
                  ∨ m = E_Monotonicity.Constant)) := by
    intro ms
    refine ⟨fun hall => ?_, monotonicityOfList_ne_constant ms, ?_⟩
    · rw [monotonicityOfList_eq, if_pos]
      rw [List.all_eq_true]
      intro m hm
      rw [hall m hm]
      simp
    · rw [monotonicityOfList_eq]
      split_ifs with h1 h2
      · rw [List.all_eq_true] at h1
        constructor
        · intro h
          cases h
        · intro ⟨hn, _⟩
          exact absurd (fun m hm => by simpa using h1 m hm) hn
      · rw [List.all_eq_true] at h2
        constructor
        · intro h
          cases h
        · intro ⟨_, hn⟩
          exact absurd (fun m hm => by simpa using h2 m hm) hn
      · rw [List.all_eq_true] at h1 h2
        constructor
        · intro _
          constructor
          · intro hn
            exact h1 (fun m hm => by simpa using hn m hm)
          · intro hn
            exact h2 (fun m hm => by simpa using hn m hm)
        · intro _
          rfl
  have hcoll : ∀ (ms : List E_Monotonicity),
      (∀ m ∈ ms, m = E_Monotonicity.Constant) →
      monotonicityOfList ms = E_Monotonicity.Nonincreasing :=
    fun ms h => (hmain ms).1 h
  refine ⟨hmain, fun c hc hall => ?_, fun c hc hall => ?_,
    fun c hc hall => ?_, fun c hc hall => ?_⟩ <;>
    simp [LinearTerms.getMonotonicity, QuadraticTerms.getMonotonicity,
      MonomialTerms.getMonotonicity, SignomialTerms.getMonotonicity,
      LinearTerms.updateMonotonicity, QuadraticTerms.updateMonotonicity,
      MonomialTerms.updateMonotonicity, SignomialTerms.updateMonotonicity,
      hc] <;>
    exact hcoll _ (fun m hm => by
      rcases List.mem_map.mp hm with ⟨t, ht, rfl⟩
      exact hall t ht)

/-- Witness for C10: the linear collection `0*x` (all member terms constant,
cache unset) is classified `Nonincreasing`. -/
theorem claim_C10_witness :
    (LinearTerms.mk [LinearTerm.mk 0 0] E_Convexity.NotSet
        E_Monotonicity.NotSet).monotonicity = E_Monotonicity.NotSet
      ∧ (∀ t ∈ (LinearTerms.mk [LinearTerm.mk 0 0] E_Convexity.NotSet
          E_Monotonicity.NotSet).terms,
          t.getMonotonicity = E_Monotonicity.Constant)
      ∧ (LinearTerms.mk [LinearTerm.mk 0 0] E_Convexity.NotSet
          E_Monotonicity.NotSet).getMonotonicity.1
          = E_Monotonicity.Nonincreasing := by
  refine ⟨rfl, by decide, ?_⟩
  exact claim_C10_all_constant_monotonicity.2.1 _ rfl (by decide)

/-- On a list of square terms the `QuadraticTerms::updateConvexity` loop
leaves `allSquares` untouched and conjoins the coefficient sign tests onto
the two sign flags. -/
lemma quadScan_squares (ts : List QuadraticTerm)
    (h : ∀ T ∈ ts, T.firstVariable = T.secondVariable) :
    ∀ (els : List (Nat × Nat × ℚ)) (vars : List Nat)
      (allSq allPos allNeg : Bool),
      (quadScan ts els vars allSq allPos allNeg).2.2 =
        (allSq,
         allPos && ts.all (fun T => decide (0 ≤ T.coefficient)),
         allNeg && ts.all (fun T => decide (T.coefficient ≤ 0))) := by
  induction ts with
  | nil => intro els vars allSq allPos allNeg; simp [quadScan]
  | cons T rest ih =>
    intro els vars allSq allPos allNeg
    have hT : T.firstVariable = T.secondVariable := h T (by simp)
    rw [quadScan, if_pos hT, ih (fun x hx => h x (by simp [hx]))]
    simp [List.all_cons, Bool.and_assoc]

/-- **C5** (counterexample).  The claim asserts `Concave` whenever all
coefficients are `≤ 0`, but for the all-square collection consisting of the
single term `0 * x²` every coefficient is `≤ 0` and yet
`QuadraticTerms::updateConvexity` classifies it `Convex`: the loop leaves
both sign flags true and the `allSquares && allPositive` shortcut is tested
first. -/
theorem claim_C5_counterexample :
    ¬ ((∀ T ∈ [QuadraticTerm.mk 0 0 0], T.coefficient ≤ 0) →
        quadConvexityValue (fun _ _ => none) [QuadraticTerm.mk 0 0 0]
          = E_Convexity.Concave) := by
  decide

/-- **C5** (amended).  For every non-empty all-square quadratic collection:
if all coefficients are `≥ 0` the classification is `Convex`, and if all
coefficients are `≤ 0` with at least one strictly negative it is `Concave`
(when every coefficient is exactly zero the `≥ 0` shortcut fires first and
yields `Convex`); in both cases the classification is reached by the direct
shortcut, without invoking the eigen-decomposition, for every possible
eigen-decomposition oracle. -/
theorem claim_C5_amended_square_shortcut
    (oracle : Nat → List (Nat × Nat × ℚ) → Option (List ℚ))
    (ts : List QuadraticTerm) (hne : ts ≠ [])
    (hsq : ∀ T ∈ ts, T.firstVariable = T.secondVariable) :
    ((∀ T ∈ ts, 0 ≤ T.coefficient) →
        quadConvexityValue oracle ts = E_Convexity.Convex
          ∧ quadUsesEigen ts = false)
      ∧ ((∀ T ∈ ts, T.coefficient ≤ 0) → (∃ T ∈ ts, T.coefficient < 0) →
          quadConvexityValue oracle ts = E_Convexity.Concave
            ∧ quadUsesEigen ts = false) := by
  have hlen : ¬ ts.length = 0 := by simpa using hne
  have hscan := quadScan_squares ts hsq [] [] true true true
  constructor
  · intro hpos
    have hall : ts.all (fun T => decide (0 ≤ T.coefficient)) = true := by
      rw [List.all_eq_true]
      intro T hT
      simpa using hpos T hT
    constructor
    · unfold quadConvexityValue
      rw [if_neg hlen]
      dsimp only
      rw [hscan]
      simp [hall]
    · unfold quadUsesEigen
      rw [if_neg hlen]
      dsimp only
      rw [hscan]
      simp [hall]
  · intro hneg hstrict
    have hall : ts.all (fun T => decide (T.coefficient ≤ 0)) = true := by
      rw [List.all_eq_true]
      intro T hT
      simpa using hneg T hT
    have hnotpos : ts.all (fun T => decide (0 ≤ T.coefficient)) = false := by
      rcases hstrict with ⟨T, hT, hTneg⟩
      rw [List.all_eq_false]
      exact ⟨T, hT, by simpa using not_le.mpr hTneg⟩
    constructor
    · unfold quadConvexityValue
      rw [if_neg hlen]
      dsimp only
      rw [hscan]
      simp [hall, hnotpos]
    · unfold quadUsesEigen
      rw [if_neg hlen]
      dsimp only
      rw [hscan]
      simp [hall, hnotpos]

/-- Witness for C5: the collection `1*x² + 2*y²` (all squares, all
coefficients nonnegative) is classified `Convex` without the
eigen-decomposition; `-1*x²` (all `≤ 0`, one strictly negative) is
classified `Concave` without the eigen-decomposition. -/
theorem claim_C5_witness :
    ([QuadraticTerm.mk 1 0 0, QuadraticTerm.mk 2 1 1] ≠
        ([] : List QuadraticTerm))
      ∧ (quadConvexityValue (fun _ _ => none)
            [QuadraticTerm.mk 1 0 0, QuadraticTerm.mk 2 1 1]
            = E_Convexity.Convex
          ∧ quadUsesEigen [QuadraticTerm.mk 1 0 0, QuadraticTerm.mk 2 1 1]
            = false)
      ∧ (quadConvexityValue (fun _ _ => none) [QuadraticTerm.mk (-1) 0 0]
            = E_Convexity.Concave
          ∧ quadUsesEigen [QuadraticTerm.mk (-1) 0 0] = false) := by
  refine ⟨by decide, ?_, ?_⟩
  · exact (claim_C5_amended_square_shortcut (fun _ _ => none)
      [QuadraticTerm.mk 1 0 0, QuadraticTerm.mk 2 1 1] (by decide)
      (by decide)).1 (by decide)
  · exact (claim_C5_amended_square_shortcut (fun _ _ => none)
      [QuadraticTerm.mk (-1) 0 0] (by decide) (by decide)).2 (by decide)
      ⟨QuadraticTerm.mk (-1) 0 0, by decide, by norm_num⟩

/-- Modelled from the spec: the interval type of the external `mc::Interval`
collaborator (interval/McCormick machinery is out of the core's scope), with
standard interval arithmetic. -/
structure Interval where
  lo : ℚ
  hi : ℚ
deriving DecidableEq, Repr

/-- Interval addition. -/
def Interval.add (x y : Interval) : Interval :=
  ⟨x.lo + y.lo, x.hi + y.hi⟩

/-- Interval negation. -/
def Interval.neg (x : Interval) : Interval :=
  ⟨-x.hi, -x.lo⟩

/-- Interval subtraction. -/
def Interval.sub (x y : Interval) : Interval :=
  x.add y.neg

/-- Interval multiplication (extremes over the four endpoint products). -/
def Interval.mul (x y : Interval) : Interval :=
  ⟨min (min (x.lo * y.lo) (x.lo * y.hi)) (min (x.hi * y.lo) (x.hi * y.hi)),
   max (max (x.lo * y.lo) (x.lo * y.hi)) (max (x.hi * y.lo) (x.hi * y.hi))⟩

/-- An `IntervalVector` assigning an interval to every variable index. -/
abbrev IntervalVec : Type := Nat → Interval

/- The `NonlinearExpression` node hierarchy, restricted to the node kinds
whose evaluation is closed over the rationals (constant, variable reference,
negate, plus, minus, and the n-ary times/sum the claims are about; the
transcendental unary nodes sqrt/log/exp/… and binary power are omitted since
their point evaluation leaves ℚ).  `NonlinearExpressions` mirrors the source
class of that name (an ordered child list). -/
mutual
inductive NonlinearExpression where
  | const (constant : Int)
  | varRef (index : Nat)
  | negate (child : NonlinearExpression)
  | plus (firstChild secondChild : NonlinearExpression)
  | minus (firstChild secondChild : NonlinearExpression)
  | times (children : NonlinearExpressions)
  | sum (children : NonlinearExpressions)
inductive NonlinearExpressions where
  | nil
  | cons (head : NonlinearExpression) (tail : NonlinearExpressions)
end

/-- Conversion from a Lean list of children. -/
def NonlinearExpressions.ofList :
    List NonlinearExpression → NonlinearExpressions
  | [] => NonlinearExpressions.nil
  | e :: rest => NonlinearExpressions.cons e (NonlinearExpressions.ofList rest)

/- Point evaluation (`calculate(const VectorDouble&)`).  `timesPointAux`
mirrors the `ExpressionTimes::calculate` loop: `value` starts at `1.0` and
the loop returns `0.0` immediately when a child (`tmpValue`) evaluates to
exactly `0.0`.  `sumPointAux` mirrors the `ExpressionSum::calculate` loop
(no short-circuit). -/
mutual
def calcPoint : NonlinearExpression → PointVec → ℚ
  | NonlinearExpression.const c, _ => (c : ℚ)
  | NonlinearExpression.varRef i, pt => pt i
  | NonlinearExpression.negate c, pt => - calcPoint c pt
  | NonlinearExpression.plus a b, pt => calcPoint a pt + calcPoint b pt
  | NonlinearExpression.minus a b, pt => calcPoint a pt - calcPoint b pt
  | NonlinearExpression.times cs, pt => timesPointAux cs pt 1
  | NonlinearExpression.sum cs, pt => sumPointAux cs pt 0
def timesPointAux : NonlinearExpressions → PointVec → ℚ → ℚ
  | NonlinearExpressions.nil, _, value => value
  | NonlinearExpressions.cons c rest, pt, value =>
    if calcPoint c pt = 0 then 0 else timesPointAux rest pt (value * calcPoint c pt)
def sumPointAux : NonlinearExpressions → PointVec → ℚ → ℚ
  | NonlinearExpressions.nil, _, value => value
  | NonlinearExpressions.cons c rest, pt, value =>
    sumPointAux rest pt (value + calcPoint c pt)
end

/- Interval evaluation (`calculate(const IntervalVector&)`).  The
`ExpressionTimes` loop multiplies the interval value of every child into the
accumulator starting from `Interval(1., 1.)`, with no zero test. -/
mutual
def calcInterval : NonlinearExpression → IntervalVec → Interval
  | NonlinearExpression.const c, _ => ⟨(c : ℚ), (c : ℚ)⟩
  | NonlinearExpression.varRef i, iv => iv i
  | NonlinearExpression.negate c, iv => (calcInterval c iv).neg
  | NonlinearExpression.plus a b, iv =>
    (calcInterval a iv).add (calcInterval b iv)
  | NonlinearExpression.minus a b, iv =>
    (calcInterval a iv).sub (calcInterval b iv)
  | NonlinearExpression.times cs, iv => timesIntervalAux cs iv ⟨1, 1⟩
  | NonlinearExpression.sum cs, iv => sumIntervalAux cs iv ⟨0, 0⟩
def timesIntervalAux : NonlinearExpressions → IntervalVec → Interval → Interval
  | NonlinearExpressions.nil, _, acc => acc
  | NonlinearExpressions.cons c rest, iv, acc =>
    timesIntervalAux rest iv (acc.mul (calcInterval c iv))
def sumIntervalAux : NonlinearExpressions → IntervalVec → Interval → Interval
  | NonlinearExpressions.nil, _, acc => acc
  | NonlinearExpressions.cons c rest, iv, acc =>
    sumIntervalAux rest iv (acc.add (calcInterval c iv))
end

/-- Instrumented `ExpressionTimes::calculate(point)` loop: same result as
`timesPointAux`, additionally counting how many children had `calculate`
invoked on them before the loop returned. -/
def timesPointCount : NonlinearExpressions → PointVec → ℚ → ℚ × Nat
  | NonlinearExpressions.nil, _, value => (value, 0)
  | NonlinearExpressions.cons c rest, pt, value =>
    if calcPoint c pt = 0 then (0, 1)
    else ((timesPointCount rest pt (value * calcPoint c pt)).1,
      (timesPointCount rest pt (value * calcPoint c pt)).2 + 1)

/-- Instrumented `ExpressionTimes::calculate(intervalVector)` loop: counts
the children evaluated (always all of them). -/
def timesIntervalCount :
    NonlinearExpressions → IntervalVec → Interval → Interval × Nat
  | NonlinearExpressions.nil, _, acc => (acc, 0)
  | NonlinearExpressions.cons c rest, iv, acc =>
    ((timesIntervalCount rest iv (acc.mul (calcInterval c iv))).1,
     (timesIntervalCount rest iv (acc.mul (calcInterval c iv))).2 + 1)

/-- The instrumented point loop computes the same value as the source loop. -/
lemma timesPointCount_fst (pt : PointVec) :
    ∀ (l : List NonlinearExpression) (value : ℚ),
      (timesPointCount (NonlinearExpressions.ofList l) pt value).1
        = timesPointAux (NonlinearExpressions.ofList l) pt value := by
  intro l
  induction l with
  | nil => intro value; rfl
  | cons c rest ih =>
    intro value
    rw [NonlinearExpressions.ofList, timesPointCount, timesPointAux]
    split_ifs with h
    · rfl
    · exact ih _

/-- The interval loop is the fold of interval multiplication over all
children. -/
lemma timesIntervalAux_eq_foldl (iv : IntervalVec) :
    ∀ (l : List NonlinearExpression) (acc : Interval),
      timesIntervalAux (NonlinearExpressions.ofList l) iv acc
        = l.foldl (fun a d => a.mul (calcInterval d iv)) acc := by
  intro l
  induction l with
  | nil => intro acc; rfl
  | cons d rest ih =>
    intro acc
    rw [NonlinearExpressions.ofList, timesIntervalAux, List.foldl_cons, ih]

/-- The interval loop evaluates every child. -/
lemma timesIntervalCount_snd (iv : IntervalVec) :
    ∀ (l : List NonlinearExpression) (acc : Interval),
      (timesIntervalCount (NonlinearExpressions.ofList l) iv acc).2
        = l.length := by
  intro l
  induction l with
  | nil => intro acc; rfl
  | cons d rest ih =>
    intro acc
    rw [NonlinearExpressions.ofList, timesIntervalCount]
    rw [ih, List.length_cons]

/-- Point loop on a child list whose prefix is nonzero and whose next child
evaluates to zero: result `0`, and exactly `prefix + 1` children are
evaluated. -/
lemma timesPoint_zero_prefix (pt : PointVec) (c : NonlinearExpression)
    (hc : calcPoint c pt = 0) :
    ∀ (pre post : List NonlinearExpression),
      (∀ d ∈ pre, calcPoint d pt ≠ 0) →
      ∀ value,
        timesPointAux (NonlinearExpressions.ofList (pre ++ c :: post)) pt value
            = 0
          ∧ (timesPointCount (NonlinearExpressions.ofList (pre ++ c :: post))
              pt value).2 = pre.length + 1 := by
  intro pre
  induction pre with
  | nil =>
    intro post _ value
    rw [List.nil_append, NonlinearExpressions.ofList]
    exact ⟨by rw [timesPointAux, if_pos hc], by simp [timesPointCount, hc]⟩
  | cons d rest ih =>
    intro post hpre value
    have hd : calcPoint d pt ≠ 0 := hpre d (by simp)
    have hrest : ∀ x ∈ rest, calcPoint x pt ≠ 0 :=
      fun x hx => hpre x (by simp [hx])
    rw [List.cons_append, NonlinearExpressions.ofList]
    constructor
    · rw [timesPointAux, if_neg hd]
      exact (ih post hrest _).1
    · rw [timesPointCount, if_neg hd]
      rw [(ih post hrest _).2, List.length_cons]

/-- **C3** (confirmed).  For every `ExpressionTimes` node with a non-empty
child list: point evaluation folds the children in order and returns exactly
`0.0` as soon as a child's point value is exactly `0.0`, evaluating only the
children up to and including that one; interval evaluation is the fold of
interval multiplication over the interval values of *all* children starting
from `[1,1]`, evaluating every child, with no short-circuit. -/
theorem claim_C3_times_short_circuit :
    (∀ (pre post : List NonlinearExpression) (c : NonlinearExpression)
        (pt : PointVec),
        (∀ d ∈ pre, calcPoint d pt ≠ 0) → calcPoint c pt = 0 →
          calcPoint (NonlinearExpression.times
              (NonlinearExpressions.ofList (pre ++ c :: post))) pt = 0
            ∧ (timesPointCount
                (NonlinearExpressions.ofList (pre ++ c :: post)) pt 1).2
                = pre.length + 1)
      ∧ (∀ (l : List NonlinearExpression) (iv : IntervalVec), l ≠ [] →
          calcInterval (NonlinearExpression.times
              (NonlinearExpressions.ofList l)) iv
              = l.foldl (fun acc d => acc.mul (calcInterval d iv)) ⟨1, 1⟩
            ∧ (timesIntervalCount (NonlinearExpressions.ofList l) iv
                ⟨1, 1⟩).2 = l.length) := by
  constructor
  · intro pre post c pt hpre hc
    have h := timesPoint_zero_prefix pt c hc pre post hpre 1
    exact ⟨by rw [calcPoint]; exact h.1, h.2⟩
  · intro l iv _
    exact ⟨by rw [calcInterval]; exact timesIntervalAux_eq_foldl iv l ⟨1, 1⟩,
      timesIntervalCount_snd iv l ⟨1, 1⟩⟩

/-- Witness for C3: the product node `(2 * 0 * 5)`.  Point evaluation
returns `0` after evaluating only the first two children; interval
evaluation evaluates all three children and returns the full interval
product. -/
theorem claim_C3_witness :
    (∀ d ∈ [NonlinearExpression.const 2],
        calcPoint d (fun _ => 0) ≠ 0)
      ∧ calcPoint (NonlinearExpression.const 0) (fun _ => 0) = 0
      ∧ calcPoint (NonlinearExpression.times (NonlinearExpressions.ofList
          ([NonlinearExpression.const 2] ++ NonlinearExpression.const 0 ::
            [NonlinearExpression.const 5]))) (fun _ => 0) = 0
      ∧ (timesPointCount (NonlinearExpressions.ofList
          ([NonlinearExpression.const 2] ++ NonlinearExpression.const 0 ::
            [NonlinearExpression.const 5])) (fun _ => 0) 1).2 = 2
      ∧ ([NonlinearExpression.const 2, NonlinearExpression.const 0,
          NonlinearExpression.const 5] ≠ [])
      ∧ calcInterval (NonlinearExpression.times (NonlinearExpressions.ofList
            [NonlinearExpression.const 2, NonlinearExpression.const 0,
              NonlinearExpression.const 5])) (fun _ => ⟨0, 0⟩)
          = [NonlinearExpression.const 2, NonlinearExpression.const 0,
              NonlinearExpression.const 5].foldl
              (fun acc d => acc.mul (calcInterval d (fun _ => ⟨0, 0⟩)))
              ⟨1, 1⟩
      ∧ (timesIntervalCount (NonlinearExpressions.ofList
          [NonlinearExpression.const 2, NonlinearExpression.const 0,
            NonlinearExpression.const 5]) (fun _ => ⟨0, 0⟩) ⟨1, 1⟩).2 = 3 := by
  have hpre : ∀ d ∈ [NonlinearExpression.const 2],
      calcPoint d (fun _ => 0) ≠ 0 := by
    intro d hd
    rw [List.mem_singleton] at hd
    subst hd
    rw [calcPoint]
    norm_num
  have hc : calcPoint (NonlinearExpression.const 0) (fun _ => 0) = 0 := by
    rw [calcPoint]
    norm_num
  have h1 := claim_C3_times_short_circuit.1 [NonlinearExpression.const 2]
    [NonlinearExpression.const 5] (NonlinearExpression.const 0)
    (fun _ => 0) hpre hc
  have h2 := claim_C3_times_short_circuit.2
    [NonlinearExpression.const 2, NonlinearExpression.const 0,
      NonlinearExpression.const 5] (fun _ => ⟨0, 0⟩) (by simp)
  exact ⟨hpre, hc, h1.1, h1.2, by simp, h2.1, h2.2⟩

/-- Modelled from the spec: `TaskBase` and its variants.  The `TaskHandler`
and the task classes themselves are outside the sources at hand (only their
callers, the two solution strategies, are present), so the task kinds follow
§4.4 of the design: a plain task mutates shared solver state; a Conditional
task evaluates a predicate and redirects the cursor to one of two named
targets; a Goto task redirects unconditionally; a Sequential composite runs
its private sub-task list to completion; a Terminate task ends the run. -/
inductive TaskSpec (σ : Type) where
  | plain (run : σ → σ)
  | conditional (predicate : σ → Bool) (trueTarget falseTarget : String)
  | goto (target : String)
  | sequential (subtasks : List (σ → σ))
  | terminate

/-- Modelled from the spec: the task-graph engine state — an ordered registry
of name→task bindings (`addTask` appends; re-registration under the same
name occupies a fresh slot, §4.4 re-registration), a movable cursor, the
shared solver state, and whether a Terminate task has run. -/
structure TaskEngine (σ : Type) where
  registry : List (String × TaskSpec σ)
  cursor : Nat
  store : σ
  finished : Bool

/-- Modelled from the spec: resolving a jump target name to the index of its
first binding in the registry (§9: a name→index table; an unregistered name
resolves past the end of the registry, i.e. to the terminal state). -/
def findTaskIndex {σ : Type} (registry : List (String × TaskSpec σ))
    (name : String) : Nat :=
  registry.findIdx (fun p => p.1 == name)

/-- Modelled from the spec: `TaskHandler::getNextTask` — `none` (no next
task) once Terminate has run or the cursor points beyond the end of the
registry. -/
def getNextTask {σ : Type} (st : TaskEngine σ) : Option (TaskSpec σ) :=
  if st.finished then none
  else (st.registry.get? st.cursor).map (fun p => p.2)

/-- Modelled from the spec: running one task.  The default transition is to
the next task in registration order; Conditional and Goto redirect the
cursor; Sequential runs its whole sub-task list before control returns. -/
def runTask {σ : Type} (st : TaskEngine σ) : TaskSpec σ → TaskEngine σ
  | TaskSpec.plain f => { st with store := f st.store, cursor := st.cursor + 1 }
  | TaskSpec.conditional p tTrue tFalse =>
    { st with
        cursor := findTaskIndex st.registry (if p st.store then tTrue else tFalse) }
  | TaskSpec.goto target =>
    { st with cursor := findTaskIndex st.registry target }
  | TaskSpec.sequential fs =>
    { st with
        store := fs.foldl (fun s f => f s) st.store
        cursor := st.cursor + 1 }
  | TaskSpec.terminate => { st with finished := true }

/-- `SolutionStrategySingleTree::solveProblem` /
`SolutionStrategyNLP::solveProblem`: `while(env->tasks->getNextTask(nextTask))
{ nextTask->run(); } return (true);` — fetch and run the next task until the
handler yields none, then return success.  Execution is bounded by an
explicit fuel parameter; `none` means the loop was still running when the
fuel ran out. -/
def solveProblemLoop {σ : Type} : Nat → TaskEngine σ → Option (Bool × TaskEngine σ)
  | 0, _ => none
  | fuel + 1, st =>
    match getNextTask st with
    | none => some (true, st)
    | some t => solveProblemLoop fuel (runTask st t)

/-- **C6** (confirmed).  Whenever the `solveProblem` loop finishes, it has
driven the task graph to a terminal state — the handler yields no further
task — and the returned flag is the success value `true` (the source returns
the constant `true`). -/
theorem claim_C6_solve_loop_terminal {σ : Type} (fuel : Nat)
    (st : TaskEngine σ) (b : Bool) (stFinal : TaskEngine σ)
    (h : solveProblemLoop fuel st = some (b, stFinal)) :
    b = true ∧ getNextTask stFinal = none := by
  induction fuel generalizing st with
  | zero => exact absurd h (by rw [solveProblemLoop]; simp)
  | succ n ih =>
    rw [solveProblemLoop] at h
    rcases hn : getNextTask st with _ | t
    · rw [hn] at h
      simp only [Option.some.injEq, Prod.mk.injEq] at h
      exact ⟨h.1.symm, h.2 ▸ hn⟩
    · rw [hn] at h
      exact ih (runTask st t) h

/-- A three-task linear graph (`A → B → C`, each task increments a counter)
used to witness the engine loop. -/
def demoRegistry : List (String × TaskSpec Nat) :=
  [("A", TaskSpec.plain (fun n => n + 1)),
   ("B", TaskSpec.plain (fun n => n + 1)),
   ("C", TaskSpec.plain (fun n => n + 1))]

/-- The engine state at the start of the demo run. -/
def demoStart : TaskEngine Nat :=
  { registry := demoRegistry, cursor := 0, store := 0, finished := false }

/-- The engine state after the demo run: all three tasks ran once. -/
def demoFinal : TaskEngine Nat :=
  { registry := demoRegistry, cursor := 3, store := 3, finished := false }

/-- Witness for C6: on the `A → B → C` graph the loop runs all three tasks
(store reaches `3`), stops in the terminal state and returns `true`. -/
theorem claim_C6_witness :
    solveProblemLoop 5 demoStart = some (true, demoFinal)
      ∧ (true = true ∧ getNextTask demoFinal = none) := by
  refine ⟨rfl, ?_⟩
  exact claim_C6_solve_loop_terminal 5 demoStart true demoFinal rfl

/-- `ES_HyperplaneCutStrategy` (dual cut-strategy setting). -/
inductive ES_HyperplaneCutStrategy where
  | ESH
  | ECP
deriving DecidableEq, Repr

/-- The configuration flags read (once, at build time) by the two strategy
constructors: the dual cut strategy, the reformulated problem's number of
nonlinear constraints and discreteness/convexity, and the boolean settings
controlling relaxation, presolve, line search, convexity assumption,
fixed-integer primal NLP, objective classification and integer cuts. -/
structure StrategyConfig where
  cutStrategy : ES_HyperplaneCutStrategy
  numberOfNonlinearConstraints : Nat
  relaxationUse : Bool
  presolveNever : Bool
  linesearchUse : Bool
  assumeConvex : Bool
  problemConvex : Bool
  fixedIntegerUse : Bool
  isDiscrete : Bool
  objectiveAboveQuadratic : Bool
  useIntegerCuts : Bool
deriving DecidableEq, Repr

/- The two constructors are embedded as the list of `addTask(task, name)`
calls they perform, in order.  Modelled from the spec (§4.4): `addTask`
appends a (name, task) binding to the registry without deduplicating by
name.  Task *instances* are identified by a number per `new` allocation site
(each site executes at most once per build); a re-added pointer keeps its
number.  `InitIter2` (6) and the second `AddHPs` (7) reuse instances, and in
the fixed-integer block `CheckAbsGap` (15) and `CheckRelGap` (16) re-add the
very task objects bound earlier. -/

/-- `SolutionStrategySingleTree`: initial unconditional adds. -/
def stA : List (String × Nat) :=
  [("InitMIPSolver", 1), ("ReformulateProb", 2)]

/-- Single tree: `FindIntPoint` is added only for the ESH cut strategy on a
problem with at least one nonlinear constraint. -/
def stFindIntPoint (cfg : StrategyConfig) : List (String × Nat) :=
  if cfg.cutStrategy = ES_HyperplaneCutStrategy.ESH
      ∧ 0 < cfg.numberOfNonlinearConstraints then
    [("FindIntPoint", 3)]
  else []

/-- Single tree: dual problem setup and first iteration initialisation. -/
def stB : List (String × Nat) :=
  [("CreateDualProblem", 4), ("InitializeLinesearch", 5), ("InitIter", 6),
   ("AddHPs", 7)]

/-- Single tree: initial relaxation strategy if `Relaxation.Use`. -/
def stRelaxInitial (cfg : StrategyConfig) : List (String × Nat) :=
  if cfg.relaxationUse then [("ExecRelaxStrategyInitial", 8)] else []

/-- Single tree: presolve task unless the presolve frequency is `Never`. -/
def stPresolveBlock (cfg : StrategyConfig) : List (String × Nat) :=
  if cfg.presolveNever then [] else [("Presolve", 9)]

/-- Single tree: iteration solve and primal pool selection. -/
def stC : List (String × Nat) :=
  [("SolveIter", 10), ("SelectPrimSolPool", 11)]

/-- Single tree: primal line-search selection if enabled and the problem has
nonlinear constraints. -/
def stLinesearch (cfg : StrategyConfig) : List (String × Nat) :=
  if cfg.linesearchUse ∧ 0 < cfg.numberOfNonlinearConstraints then
    [("SelectPrimLinesearch", 12)]
  else []

/-- Single tree: iteration report. -/
def stD : List (String × Nat) :=
  [("PrintIterReport", 13)]

/-- Single tree: infeasibility repair unless convexity is assumed. -/
def stRepair (cfg : StrategyConfig) : List (String × Nat) :=
  if cfg.assumeConvex then [] else [("RepairInfeasibility", 14)]

/-- Single tree: the termination/stagnation check chain. -/
def stChecks : List (String × Nat) :=
  [("CheckAbsGap", 15), ("CheckRelGap", 16), ("CheckIterLim", 17),
   ("CheckTimeLim", 18), ("CheckConstrTol", 19), ("CheckIterError", 20),
   ("CheckMaxObjectiveCuts", 21), ("CheckPrimalStag", 22),
   ("AddObjectiveCut", 23), ("CheckDualStag", 24)]

/-- Single tree: the fixed-integer primal block — on a discrete problem with
`FixedInteger.Use` it adds the NLP candidate tasks and then *re-adds* the
existing `tCheckAbsGap` (instance 15) and `tCheckRelGap` (instance 16) under
their original names. -/
def stFixedInteger (cfg : StrategyConfig) : List (String × Nat) :=
  if cfg.fixedIntegerUse ∧ cfg.isDiscrete then
    [("SelectPrimFixedNLPSolPool", 25), ("SelectPrimNLPCheck", 26),
     ("CheckAbsGap", 15), ("CheckRelGap", 16)]
  else []

/-- Single tree: second iteration initialisation — the same
`tInitializeIteration` instance (6) re-added as `InitIter2`. -/
def stE : List (String × Nat) :=
  [("InitIter2", 6)]

/-- Single tree: per-iteration relaxation strategy if `Relaxation.Use`. -/
def stRelax2 (cfg : StrategyConfig) : List (String × Nat) :=
  if cfg.relaxationUse then [("ExecRelaxStrategy", 27)] else []

/-- Single tree: hyperplane point selection — ESH adds the interior-point
update plus the ESH selector, ECP adds the ECP selector. -/
def stHPPts (cfg : StrategyConfig) : List (String × Nat) :=
  if cfg.cutStrategy = ES_HyperplaneCutStrategy.ESH then
    [("UpdateInteriorPoint", 28), ("SelectHPPts", 29)]
  else [("SelectHPPts", 30)]

/-- Single tree: objective hyperplane points for a super-quadratic
objective. -/
def stObjHPPts (cfg : StrategyConfig) : List (String × Nat) :=
  if cfg.objectiveAboveQuadratic then [("SelectObjectiveHPPts", 31)] else []

/-- Single tree: integer cuts if enabled. -/
def stIntegerCuts (cfg : StrategyConfig) : List (String × Nat) :=
  if cfg.useIntegerCuts then [("AddICs", 32)] else []

/-- Single tree: trailing adds — the `tAddHPs` instance (7) re-added, the
loop-back Goto, the finalization composite (0) and Terminate. -/
def stTail : List (String × Nat) :=
  [("AddHPs", 7), ("Goto", 33), ("FinalizeSolution", 0), ("Terminate", 35)]

/-- The full ordered registry built by the
`SolutionStrategySingleTree` constructor. -/
def singleTreeTaskList (cfg : StrategyConfig) : List (String × Nat) :=
  stA ++ stFindIntPoint cfg ++ stB ++ stRelaxInitial cfg
    ++ stPresolveBlock cfg ++ stC ++ stLinesearch cfg ++ stD ++ stRepair cfg
    ++ stChecks ++ stFixedInteger cfg ++ stE ++ stRelax2 cfg ++ stHPPts cfg
    ++ stObjHPPts cfg ++ stIntegerCuts cfg ++ stTail

/-- `SolutionStrategyNLP`: initial add. -/
def nlpA : List (String × Nat) :=
  [("InitMIPSolver", 1)]

/-- NLP strategy: `FindIntPoint` under the same ESH-and-nonlinear
condition. -/
def nlpFindIntPoint (cfg : StrategyConfig) : List (String × Nat) :=
  if cfg.cutStrategy = ES_HyperplaneCutStrategy.ESH
      ∧ 0 < cfg.numberOfNonlinearConstraints then
    [("FindIntPoint", 3)]
  else []

/-- NLP strategy: dual problem setup and first iteration initialisation. -/
def nlpB : List (String × Nat) :=
  [("CreateDualProblem", 4), ("InitializeLinesearch", 5), ("InitIter", 6),
   ("AddHPs", 7)]

/-- NLP strategy: presolve unless `Never`. -/
def nlpPresolveBlock (cfg : StrategyConfig) : List (String × Nat) :=
  if cfg.presolveNever then [] else [("Presolve", 9)]

/-- NLP strategy: iteration solve and primal pool selection. -/
def nlpC : List (String × Nat) :=
  [("SolveIter", 10), ("SelectPrimSolPool", 11)]

/-- NLP strategy: line-search selection block. -/
def nlpLinesearch (cfg : StrategyConfig) : List (String × Nat) :=
  if cfg.linesearchUse ∧ 0 < cfg.numberOfNonlinearConstraints then
    [("SelectPrimLinesearch", 12)]
  else []

/-- NLP strategy: iteration report. -/
def nlpD : List (String × Nat) :=
  [("PrintIterReport", 13)]

/-- NLP strategy: infeasibility repair unless convexity is assumed or the
reformulated problem is convex. -/
def nlpRepair (cfg : StrategyConfig) : List (String × Nat) :=
  if cfg.assumeConvex = false ∧ cfg.problemConvex = false then
    [("RepairInfeasibility", 14)]
  else []

/-- NLP strategy: the check chain (including user termination) and the
re-added `InitIter2` instance (6). -/
def nlpChecks : List (String × Nat) :=
  [("CheckAbsGap", 15), ("CheckRelGap", 16), ("CheckIterLim", 17),
   ("CheckTimeLim", 18), ("CheckUserTermination", 19), ("CheckIterError", 20),
   ("CheckConstrTol", 21), ("CheckPrimalStag", 22), ("AddObjectiveCut", 23),
   ("CheckDualStag", 24), ("InitIter2", 6)]

/-- NLP strategy: hyperplane point selection by cut strategy. -/
def nlpHPPts (cfg : StrategyConfig) : List (String × Nat) :=
  if cfg.cutStrategy = ES_HyperplaneCutStrategy.ESH then
    [("UpdateInteriorPoint", 28), ("SelectHPPts", 29)]
  else [("SelectHPPts", 30)]

/-- NLP strategy: objective hyperplane points for a super-quadratic
objective. -/
def nlpObjHPPts (cfg : StrategyConfig) : List (String × Nat) :=
  if cfg.objectiveAboveQuadratic then [("SelectObjectiveHPPts", 31)] else []

/-- NLP strategy: trailing adds. -/
def nlpTail : List (String × Nat) :=
  [("AddHPs", 7), ("Goto", 33), ("FinalizeSolution", 0), ("Terminate", 35)]

/-- The full ordered registry built by the `SolutionStrategyNLP`
constructor. -/
def nlpTaskList (cfg : StrategyConfig) : List (String × Nat) :=
  nlpA ++ nlpFindIntPoint cfg ++ nlpB ++ nlpPresolveBlock cfg ++ nlpC
    ++ nlpLinesearch cfg ++ nlpD ++ nlpRepair cfg ++ nlpChecks
    ++ nlpHPPts cfg ++ nlpObjHPPts cfg ++ nlpTail

/-- Binding-name test for the `CheckAbsGap` slots. -/
def isCheckAbsGap (p : String × Nat) : Bool :=
  p.1 == "CheckAbsGap"

/-- Binding-name test for the `FindIntPoint` slot. -/
def isFindIntPoint (p : String × Nat) : Bool :=
  p.1 == "FindIntPoint"

lemma filter_abs_stA : stA.filter isCheckAbsGap = [] := by decide

lemma filter_abs_stFindIntPoint (cfg : StrategyConfig) :
    (stFindIntPoint cfg).filter isCheckAbsGap = [] := by
  unfold stFindIntPoint
  split_ifs <;> decide

lemma filter_abs_stB : stB.filter isCheckAbsGap = [] := by decide

lemma filter_abs_stRelaxInitial (cfg : StrategyConfig) :
    (stRelaxInitial cfg).filter isCheckAbsGap = [] := by
  unfold stRelaxInitial
  split_ifs <;> decide

lemma filter_abs_stPresolveBlock (cfg : StrategyConfig) :
    (stPresolveBlock cfg).filter isCheckAbsGap = [] := by
  unfold stPresolveBlock
  split_ifs <;> decide

lemma filter_abs_stC : stC.filter isCheckAbsGap = [] := by decide

lemma filter_abs_stLinesearch (cfg : StrategyConfig) :
    (stLinesearch cfg).filter isCheckAbsGap = [] := by
  unfold stLinesearch
  split_ifs <;> decide

lemma filter_abs_stD : stD.filter isCheckAbsGap = [] := by decide

lemma filter_abs_stRepair (cfg : StrategyConfig) :
    (stRepair cfg).filter isCheckAbsGap = [] := by
  unfold stRepair
  split_ifs <;> decide

lemma filter_abs_stChecks :
    stChecks.filter isCheckAbsGap = [("CheckAbsGap", 15)] := by decide

lemma filter_abs_stE : stE.filter isCheckAbsGap = [] := by decide

lemma filter_abs_stRelax2 (cfg : StrategyConfig) :
    (stRelax2 cfg).filter isCheckAbsGap = [] := by
  unfold stRelax2
  split_ifs <;> decide

lemma filter_abs_stHPPts (cfg : StrategyConfig) :
    (stHPPts cfg).filter isCheckAbsGap = [] := by
  unfold stHPPts
  split_ifs <;> decide

lemma filter_abs_stObjHPPts (cfg : StrategyConfig) :
    (stObjHPPts cfg).filter isCheckAbsGap = [] := by
  unfold stObjHPPts
  split_ifs <;> decide

lemma filter_abs_stIntegerCuts (cfg : StrategyConfig) :
    (stIntegerCuts cfg).filter isCheckAbsGap = [] := by
  unfold stIntegerCuts
  split_ifs <;> decide

lemma filter_abs_stTail : stTail.filter isCheckAbsGap = [] := by decide

/-- **C7** (confirmed).  In the single-tree build with the fixed-integer
primal setting enabled on a discrete problem, the name `CheckAbsGap` is
bound at exactly two (hence distinct) positions of the execution order —
the registry keeps both bindings, with no deduplication by name — and both
slots carry the same task instance: instance number `15`, the single
`TaskCheckAbsoluteGap` allocated by the constructor and re-added in the
fixed-integer block. -/
theorem claim_C7_checkabsgap_two_slots (cfg : StrategyConfig)
    (hfix : cfg.fixedIntegerUse = true) (hdisc : cfg.isDiscrete = true) :
    (singleTreeTaskList cfg).filter isCheckAbsGap
      = [("CheckAbsGap", 15), ("CheckAbsGap", 15)] := by
  have hfi : stFixedInteger cfg
      = [("SelectPrimFixedNLPSolPool", 25), ("SelectPrimNLPCheck", 26),
         ("CheckAbsGap", 15), ("CheckRelGap", 16)] := by
    unfold stFixedInteger
    rw [hfix, hdisc]
    simp
  unfold singleTreeTaskList
  rw [hfi]
  simp only [List.filter_append, filter_abs_stA, filter_abs_stFindIntPoint,
    filter_abs_stB, filter_abs_stRelaxInitial, filter_abs_stPresolveBlock,
    filter_abs_stC, filter_abs_stLinesearch, filter_abs_stD,
    filter_abs_stRepair, filter_abs_stChecks, filter_abs_stE,
    filter_abs_stRelax2, filter_abs_stHPPts, filter_abs_stObjHPPts,
    filter_abs_stIntegerCuts, filter_abs_stTail, List.nil_append,
    List.append_nil]
  decide

/-- A concrete single-tree configuration with the fixed-integer primal
setting enabled on a discrete problem. -/
def stDemoConfig : StrategyConfig :=
  { cutStrategy := ES_HyperplaneCutStrategy.ESH
    numberOfNonlinearConstraints := 1
    relaxationUse := true
    presolveNever := false
    linesearchUse := true
    assumeConvex := false
    problemConvex := false
    fixedIntegerUse := true
    isDiscrete := true
    objectiveAboveQuadratic := true
    useIntegerCuts := true }

/-- Witness for C7: on the concrete configuration the registry holds exactly
the two `CheckAbsGap` slots, both with task instance `15`. -/
theorem claim_C7_witness :
    (stDemoConfig.fixedIntegerUse = true ∧ stDemoConfig.isDiscrete = true)
      ∧ (singleTreeTaskList stDemoConfig).filter isCheckAbsGap
          = [("CheckAbsGap", 15), ("CheckAbsGap", 15)] := by
  exact ⟨⟨rfl, rfl⟩, claim_C7_checkabsgap_two_slots stDemoConfig rfl rfl⟩

lemma any_find_stA : stA.any isFindIntPoint = false := by decide

lemma any_find_stFindIntPoint (cfg : StrategyConfig) :
    (stFindIntPoint cfg).any isFindIntPoint = true ↔
      cfg.cutStrategy = ES_HyperplaneCutStrategy.ESH
        ∧ 0 < cfg.numberOfNonlinearConstraints := by
  unfold stFindIntPoint
  split_ifs with h
  · exact iff_of_true (by decide) h
  · exact iff_of_false (by decide) h

lemma any_find_stB : stB.any isFindIntPoint = false := by decide

lemma any_find_stRelaxInitial (cfg : StrategyConfig) :
    (stRelaxInitial cfg).any isFindIntPoint = false := by
  unfold stRelaxInitial
  split_ifs <;> decide

lemma any_find_stPresolveBlock (cfg : StrategyConfig) :
    (stPresolveBlock cfg).any isFindIntPoint = false := by
  unfold stPresolveBlock
  split_ifs <;> decide

lemma any_find_stC : stC.any isFindIntPoint = false := by decide

lemma any_find_stLinesearch (cfg : StrategyConfig) :
    (stLinesearch cfg).any isFindIntPoint = false := by
  unfold stLinesearch
  split_ifs <;> decide

lemma any_find_stD : stD.any isFindIntPoint = false := by decide

lemma any_find_stRepair (cfg : StrategyConfig) :
    (stRepair cfg).any isFindIntPoint = false := by
  unfold stRepair
  split_ifs <;> decide

lemma any_find_stChecks : stChecks.any isFindIntPoint = false := by decide

lemma any_find_stFixedInteger (cfg : StrategyConfig) :
    (stFixedInteger cfg).any isFindIntPoint = false := by
  unfold stFixedInteger
  split_ifs <;> decide

lemma any_find_stE : stE.any isFindIntPoint = false := by decide

lemma any_find_stRelax2 (cfg : StrategyConfig) :
    (stRelax2 cfg).any isFindIntPoint = false := by
  unfold stRelax2
  split_ifs <;> decide

lemma any_find_stHPPts (cfg : StrategyConfig) :
    (stHPPts cfg).any isFindIntPoint = false := by
  unfold stHPPts
  split_ifs <;> decide

lemma any_find_stObjHPPts (cfg : StrategyConfig) :
    (stObjHPPts cfg).any isFindIntPoint = false := by
  unfold stObjHPPts
  split_ifs <;> decide

lemma any_find_stIntegerCuts (cfg : StrategyConfig) :
    (stIntegerCuts cfg).any isFindIntPoint = false := by
  unfold stIntegerCuts
  split_ifs <;> decide

lemma any_find_stTail : stTail.any isFindIntPoint = false := by decide

lemma any_find_nlpA : nlpA.any isFindIntPoint = false := by decide

lemma any_find_nlpFindIntPoint (cfg : StrategyConfig) :
    (nlpFindIntPoint cfg).any isFindIntPoint = true ↔
      cfg.cutStrategy = ES_HyperplaneCutStrategy.ESH
        ∧ 0 < cfg.numberOfNonlinearConstraints := by
  unfold nlpFindIntPoint
  split_ifs with h
  · exact iff_of_true (by decide) h
  · exact iff_of_false (by decide) h

lemma any_find_nlpB : nlpB.any isFindIntPoint = false := by decide

lemma any_find_nlpPresolveBlock (cfg : StrategyConfig) :
    (nlpPresolveBlock cfg).any isFindIntPoint = false := by
  unfold nlpPresolveBlock
  split_ifs <;> decide

lemma any_find_nlpC : nlpC.any isFindIntPoint = false := by decide

lemma any_find_nlpLinesearch (cfg : StrategyConfig) :
    (nlpLinesearch cfg).any isFindIntPoint = false := by
  unfold nlpLinesearch
  split_ifs <;> decide

lemma any_find_nlpD : nlpD.any isFindIntPoint = false := by decide

lemma any_find_nlpRepair (cfg : StrategyConfig) :
    (nlpRepair cfg).any isFindIntPoint = false := by
  unfold nlpRepair
  split_ifs <;> decide

lemma any_find_nlpChecks : nlpChecks.any isFindIntPoint = false := by decide

lemma any_find_nlpHPPts (cfg : StrategyConfig) :
    (nlpHPPts cfg).any isFindIntPoint = false := by
  unfold nlpHPPts
  split_ifs <;> decide

lemma any_find_nlpObjHPPts (cfg : StrategyConfig) :
    (nlpObjHPPts cfg).any isFindIntPoint = false := by
  unfold nlpObjHPPts
  split_ifs <;> decide

lemma any_find_nlpTail : nlpTail.any isFindIntPoint = false := by decide

/-- **C8** (confirmed).  In both strategy builds, a `FindIntPoint` binding
is present in the built task sequence exactly when the dual cut strategy is
ESH and the reformulated problem has at least one nonlinear constraint; in
every other configuration (ECP, or no nonlinear constraints) no block of the
build adds it. -/
theorem claim_C8_findintpoint_iff (cfg : StrategyConfig) :
    ((singleTreeTaskList cfg).any isFindIntPoint = true ↔
        cfg.cutStrategy = ES_HyperplaneCutStrategy.ESH
          ∧ 0 < cfg.numberOfNonlinearConstraints)
      ∧ ((nlpTaskList cfg).any isFindIntPoint = true ↔
          cfg.cutStrategy = ES_HyperplaneCutStrategy.ESH
            ∧ 0 < cfg.numberOfNonlinearConstraints) := by
  constructor
  · unfold singleTreeTaskList
    simp only [List.any_append, any_find_stA, any_find_stB,
      any_find_stRelaxInitial, any_find_stPresolveBlock, any_find_stC,
      any_find_stLinesearch, any_find_stD, any_find_stRepair,
      any_find_stChecks, any_find_stFixedInteger, any_find_stE,
      any_find_stRelax2, any_find_stHPPts, any_find_stObjHPPts,
      any_find_stIntegerCuts, any_find_stTail, Bool.or_false, Bool.false_or]
    exact any_find_stFindIntPoint cfg
  · unfold nlpTaskList
    simp only [List.any_append, any_find_nlpA, any_find_nlpB,
      any_find_nlpPresolveBlock, any_find_nlpC, any_find_nlpLinesearch,
      any_find_nlpD, any_find_nlpRepair, any_find_nlpChecks,
      any_find_nlpHPPts, any_find_nlpObjHPPts, any_find_nlpTail,
      Bool.or_false, Bool.false_or]
    exact any_find_nlpFindIntPoint cfg

/-- Witness for C8: on the concrete ESH configuration with one nonlinear
constraint both builds include a `FindIntPoint` binding. -/
theorem claim_C8_witness :
    (singleTreeTaskList stDemoConfig).any isFindIntPoint = true
      ∧ (nlpTaskList stDemoConfig).any isFindIntPoint = true :=
  ⟨(claim_C8_findintpoint_iff stDemoConfig).1.mpr ⟨rfl, by decide⟩,
   (claim_C8_findintpoint_iff stDemoConfig).2.mpr ⟨rfl, by decide⟩⟩

/-- Witness for C2 (amended): on a fresh empty linear collection,
`getMonotonicity` performs the lazy recomputation (its updated state is the
`updateMonotonicity` result). -/
theorem claim_C2_witness :
    (LinearTerms.mk [] E_Convexity.NotSet E_Monotonicity.NotSet).monotonicity
        = E_Monotonicity.NotSet
      ∧ (LinearTerms.mk [] E_Convexity.NotSet
          E_Monotonicity.NotSet).getMonotonicity.2
        = (LinearTerms.mk [] E_Convexity.NotSet
            E_Monotonicity.NotSet).updateMonotonicity :=
  ⟨rfl, claim_C2_amended_add_resets_caches.2.2.2.2.1 _ rfl⟩

end SHOT
